import Mathlib

/-!
Shallow embedding of `src/main.py` (PyBlockFoam): vertices, blocks, the
process-wide vertex→memberships dictionary, connectivity, and blockMesh
serialization.

The Python module keeps two pieces of process-wide mutable state:
`Vertex.count` / `Block.count` (monotone id counters) and
`Vertex.vertex_dict` (an insertion-ordered `defaultdict` mapping each
vertex object to the list of `(block, local_vertex_id)` records appended
during block construction).  We model that state explicitly as a
`MeshState` value threaded through the constructors.  Vertex and block
objects are identified by their `id` field: in any trace built from the
constructors, ids are assigned from the monotone counters and therefore
distinct, so Python object identity (`is`, and the identity-based `__eq__`
together with `__hash__ = hash((type, id))`) coincides with id equality.
Python `float` coordinates are modelled as `ℚ`, exact for every value
appearing in the module and in the claims.
-/

namespace PyBlockFoam

/-- A Python `Vertex` object: an id (assigned from `Vertex.count`) and three
coordinates (`float(x)`, `float(y)`, `float(z)` — modelled as rationals). -/
structure Vertex where
  id : Nat
  x : ℚ
  y : ℚ
  z : ℚ
deriving DecidableEq, Repr

/-- One record of `Vertex.vertex_dict`: in Python a `block_vertex` namedtuple
`(block, local_vertex_id)`; the block is represented by its id. -/
abbrev MembershipRec := Nat × Nat

/-- The process-wide `Vertex.vertex_dict`: an insertion-ordered association
list from vertex id to the list of membership records appended for it. -/
abbrev VDict := List (Nat × List MembershipRec)

/-- The process-wide mutable state of the module: the two class counters and
the vertex dictionary. -/
structure MeshState where
  vertexCount : Nat
  blockCount : Nat
  vertexDict : VDict
deriving DecidableEq, Repr

/-- The state before any vertex or block has been created. -/
def initState : MeshState := ⟨0, 0, []⟩

/-- A Python `Block` object's own fields: id (from `Block.count`), `name`,
and `cells` (a `block_cells` namedtuple of three ints). -/
structure BlockData where
  id : Nat
  name : String
  cells : Nat × Nat × Nat
deriving DecidableEq, Repr

/-- Truthiness of `getattr(self, "id", None)` in the id setters: `None`
(no id assigned yet, the property getter raises `AttributeError`) is falsy,
and the integer `0` is also falsy — only a nonzero assigned id is truthy. -/
def idAlreadySet : Option Int → Bool
  | none => false
  | some i => i != 0

/-- The shared id setter of `Vertex.id` and `Block.id`:
`if getattr(self, "id", None): raise ValueError("id already set")`, else
store `int(value)`.  Returns the new `_id` slot, or the error raised. -/
def setId (cur : Option Int) (value : Int) : Except String (Option Int) :=
  if idAlreadySet cur then Except.error "id already set" else Except.ok (some value)

/-- `Vertex.__init__`: the new object takes `id = Vertex.count`, the counter
is incremented, and the coordinates are stored.  Creation does not touch
`Vertex.vertex_dict`. -/
def mkVertex (s : MeshState) (x y z : ℚ) : Vertex × MeshState :=
  (⟨s.vertexCount, x, y, z⟩, { s with vertexCount := s.vertexCount + 1 })

/-- Create one vertex per coordinate triple, in order (a sequence of
`Vertex(...)` calls). -/
def mkVertices : MeshState → List (ℚ × ℚ × ℚ) → List Vertex × MeshState
  | s, [] => ([], s)
  | s, c :: rest =>
    let p := mkVertex s c.1 c.2.1 c.2.2
    let q := mkVertices p.2 rest
    (p.1 :: q.1, q.2)

/-- `Vertex.vertex_dict[vert].append(entry)` for a `defaultdict(list)`:
if the key is present its list grows at the end (the key keeps its
position); a missing key is inserted at the end of the dictionary order
with a singleton list. -/
def dictAppend : VDict → Nat → MembershipRec → VDict
  | [], v, e => [(v, [e])]
  | (k, recs) :: rest, v, e =>
    if k = v then (k, recs ++ [e]) :: rest
    else (k, recs) :: dictAppend rest v e

/-- The registration loop of `Block.__init__`:
`for i, vert in enumerate(vertices): Vertex.vertex_dict[vert].append(block_vertex(self, i))`,
started at index `i`. -/
def registerCorners (bid : Nat) : VDict → Nat → List Nat → VDict
  | d, _, [] => d
  | d, i, v :: rest => registerCorners bid (dictAppend d v (bid, i)) (i + 1) rest

/-- The guard of `Block.__init__`:
`[vertices.count(vert) for vert in vertices].count(1) != 8` raises; i.e.
construction is accepted exactly when the number of arguments occurring
exactly once in the argument tuple is 8. -/
def blockCheckPasses (vs : List Nat) : Bool :=
  (vs.map fun v => vs.count v).count 1 == 8

/-- The `name` argument handling `self.name = name or f"Block-{self.id}"`:
Python `or` falls back on a falsy value (`None` or the empty string). -/
def blockName (name : Option String) (bid : Nat) : String :=
  match name with
  | some n => if n = "" then "Block-" ++ toString bid else n
  | none => "Block-" ++ toString bid

/-- `Block.__init__` as a state transformer.  The guard runs first; on
failure a `ValueError` whose message reports `len(vertices)` is raised
before any state is touched (the Python message additionally appends the
`repr` of the argument tuple, elided here).  On success the block takes
`id = Block.count`, the counter is incremented, `cells = (10, 10, 10)`,
and the 8-iteration (in general `len(vertices)`-iteration) registration
loop appends one membership record per argument position. -/
def mkBlock (s : MeshState) (vs : List Nat) (name : Option String) :
    Except String BlockData × MeshState :=
  if ¬ blockCheckPasses vs then
    (Except.error ("Need exactly 8 unique vertices to create a block, got "
        ++ toString vs.length ++ ":"), s)
  else
    let bid := s.blockCount
    let b : BlockData := ⟨bid, blockName name bid, (10, 10, 10)⟩
    (Except.ok b,
      { s with
        blockCount := bid + 1
        vertexDict := registerCorners bid s.vertexDict 0 vs })

/-- The keys of `Vertex.vertex_dict` in dictionary (insertion) order:
`Vertex.get_vertices()`. -/
def dictKeys (d : VDict) : List Nat := d.map Prod.fst

/-- `Vertex.global_id`: the index of the vertex among the keys of the
vertex dictionary (`dict((v, i) for i, v in enumerate(keys)).get(self)`),
`None` when the vertex appears in no block. -/
def globalId (s : MeshState) (vid : Nat) : Option Nat :=
  (dictKeys s.vertexDict).indexOf? vid

/-- The scan of `Block.vertices_with_local_id`, as a function of the
dictionary: every `(vertex, records)` item in order contributes, for each
record belonging to the given block, the pair `(vertex, local_vertex_id)`. -/
def recsFor (d : VDict) (bid : Nat) : List (Nat × Nat) :=
  d.flatMap fun p =>
    (p.2.filter fun r => r.1 == bid).map fun r => (p.1, r.2)

/-- `Block.vertices_with_local_id`: the scan above over the process-wide
`Vertex.vertex_dict`. -/
def vertices_with_local_id (s : MeshState) (bid : Nat) : List (Nat × Nat) :=
  recsFor s.vertexDict bid

/-- `Block.vertices`: the pairs of `vertices_with_local_id` sorted (Python's
`sorted`, a stable sort — modelled by stable insertion sort) by the local
id, keeping only the vertices. -/
def blockVertices (s : MeshState) (bid : Nat) : List Nat :=
  ((vertices_with_local_id s bid).insertionSort fun p q => p.2 ≤ q.2).map Prod.fst

/-- `Block.edge_map`: the 12 edges of the hexahedron, in source order. -/
def edge_map : List (Nat × Nat) :=
  [(0, 1), (3, 2), (7, 6), (4, 5), (0, 3), (1, 2), (5, 6), (4, 7),
   (0, 4), (1, 5), (2, 6), (3, 7)]

/-- `permutate_neasted_iterable(edge_map)`: each pair `(a, b)` contributes
its two permutations `(a, b)` then `(b, a)`, edges in order. -/
def permutedEdges : List (Nat × Nat) :=
  edge_map.flatMap fun e => [(e.1, e.2), (e.2, e.1)]

/-- The list `mapping[i]` built by `Block.vertex_connection_map`: the second
components of the permuted edges whose first component is `i`, in append
order. -/
def connectionList (i : Nat) : List Nat :=
  permutedEdges.filterMap fun p => if p.1 == i then some p.2 else none

/-- `Block.vertex_connection_map.get(vert_id)`: the connection `defaultdict`
holds a key exactly when some permuted edge starts there (local indices
0..7); `.get` on any other key returns `None`.  The map is identical for
every block (the topology is fixed), so it is a function of the local
index alone. -/
def vertex_connection_map (i : Nat) : Option (List Nat) :=
  if connectionList i = [] then none else some (connectionList i)

/-- `Vertex.connected_to`: for every `(block, vert_id)` record of this
vertex (`Vertex.vertex_dict.get(self, [])` — a plain `.get`, which does
not insert a key), look up the block's connection list for `vert_id`
(iterating `None` raises, modelled as `none`) and index the block's
ordered vertices at each connected local index (an out-of-range index
raises, modelled as `none`); the collected vertices form a set. -/
def connected_to (s : MeshState) (vid : Nat) : Option (Finset Nat) := do
  let mems := ((s.vertexDict.lookup vid).getD [])
  let lists ← mems.mapM fun m => do
    let nbrs ← vertex_connection_map m.2
    nbrs.mapM fun j => (blockVertices s m.1).get? j
  return lists.flatten.toFinset

/-- `Vertex.is_inner_vertex`: `len(self.connected_to) == 6`. -/
def is_inner_vertex (s : MeshState) (vid : Nat) : Option Bool :=
  (connected_to s vid).map fun t => t.card == 6

/-- Left-pad a string with spaces to a minimum width (Python's `{:12.6f}` /
`{:6d}` field-width padding). -/
def padLeft (w : Nat) (str : String) : String :=
  if str.length < w then String.mk (List.replicate (w - str.length) ' ') ++ str else str

/-- Left-pad with zeros to a minimum width (for the fractional digits). -/
def padZeros (w : Nat) (str : String) : String :=
  if str.length < w then String.mk (List.replicate (w - str.length) '0') ++ str else str

/-- Round `num / den` (`den > 0`) scaled by 10^6 to the nearest integer,
ties to even — the rounding CPython's fixed-point float formatting
performs (exact for every coordinate appearing in the module and the
claims: none produces a tie).  Implemented on the reduced numerator and
denominator with integer operations: `f` is the floor of the scaled value
and `r` the nonnegative remainder. -/
def roundHalfEvenScaled (num : ℤ) (den : ℕ) : ℤ :=
  let t := num * 1000000
  let f := Int.fdiv t den
  let r := t - f * den
  if 2 * r < (den : ℤ) then f
  else if (den : ℤ) < 2 * r then f + 1
  else if f % 2 = 0 then f else f + 1

/-- The digits of `"{:.6f}"`: sign, integer part, point, six fractional
digits. -/
def fixed6 (q : ℚ) : String :=
  let n := roundHalfEvenScaled q.num q.den
  let m := n.natAbs
  (if n < 0 then "-" else "")
    ++ toString (m / 1000000) ++ "." ++ padZeros 6 (toString (m % 1000000))

/-- `FLOAT_FORMAT_STRING = "{:12.6f}"` applied to a coordinate. -/
def floatFormat (q : ℚ) : String := padLeft 12 (fixed6 q)

/-- `INT_FORMAT_STRING = "{:6d}"` applied to an integer. -/
def intFormat (n : Int) : String := padLeft 6 (toString n)

/-- `Vertex.blockMesh_format`:
`f"( {x} {y} {z} ) // {index}"` with the three formatted coordinates and
the formatted `global_id`.  When `global_id` is `None` the int format
raises (`none`). -/
def vertexBlockMeshFormat (s : MeshState) (v : Vertex) : Option String :=
  (globalId s v.id).map fun gi =>
    "( " ++ floatFormat v.x ++ " " ++ floatFormat v.y ++ " " ++ floatFormat v.z
      ++ " ) // " ++ intFormat gi

/-- `Block.vertices_by_global_id`: `[vertex.id for vertex in self.vertices]`.
Note the source takes the `id` field, not `global_id`.  In this embedding
the ordered vertices are already represented by their ids, so taking `.id`
of each is the identity on the list. -/
def vertices_by_global_id (s : MeshState) (bid : Nat) : List Nat :=
  blockVertices s bid

/-- Modelled from the spec (for comparison with the source's
`vertices_by_global_id`): the registry-derived `GlobalIndex` of each of the
block's corners in local order — "Global indices in the block line must be
the vertices' registry-derived GlobalIndex, not their id". -/
def specGlobalIndices (s : MeshState) (bid : Nat) : List (Option Nat) :=
  (blockVertices s bid).map (globalId s)

/-- `Block.blockMesh_format`:
`"hex (" + " ".join(map(str, self.vertices_by_global_id)) + ") " + self.name
+ " (" + " ".join(map(str, self.cells)) + ") " + "simpleGrading (1 1 1)"`. -/
def blockBlockMeshFormat (s : MeshState) (b : BlockData) : String :=
  "hex (" ++ String.intercalate " " ((vertices_by_global_id s b.id).map toString)
    ++ ") " ++ b.name ++ " ("
    ++ String.intercalate " " [toString b.cells.1, toString b.cells.2.1, toString b.cells.2.2]
    ++ ") " ++ "simpleGrading (1 1 1)"

/-- The module-level coordinates of `v0 .. v11`. -/
def moduleCoords : List (ℚ × ℚ × ℚ) :=
  [(0, 0, 0), (1, 0, 0), (1, 1, 0), (0, 1, 0),
   (0, 0, 1), (1, 0, 1), (1, 1, 1), (0, 1, 1),
   (1, 2, 0), (0, 2, 0), (1, 2, 1), (0, 2, 1)]

/-- The state after the module-level `v0 = Vertex(0,0,0)` … `v11` calls. -/
def stateAfterVertices : MeshState := (mkVertices initState moduleCoords).2

/-- The module-level `b0 = Block(v0, .., v7)` call. -/
def b0Call : Except String BlockData × MeshState :=
  mkBlock stateAfterVertices [0, 1, 2, 3, 4, 5, 6, 7] none

/-- The module-level `b1 = Block(v1, v8, v9, v2, v5, v10, v11, v6)` call. -/
def b1Call : Except String BlockData × MeshState :=
  mkBlock b0Call.2 [1, 8, 9, 2, 5, 10, 11, 6] none

/-- The process-wide state after the whole module-level script has run. -/
def moduleState : MeshState := b1Call.2

/-- Nine vertex creations in a fresh process (coordinates immaterial to
identity and membership): used by the traces below. -/
def nineCoords : List (ℚ × ℚ × ℚ) :=
  [(0, 0, 0), (1, 0, 0), (2, 0, 0), (3, 0, 0), (4, 0, 0),
   (5, 0, 0), (6, 0, 0), (7, 0, 0), (8, 0, 0)]

/-- The state after the nine creations: ids 0..8 handed out, empty dict. -/
def nineState : MeshState := (mkVertices initState nineCoords).2

/-- A `Block` call receiving TEN vertex references — eight distinct ones
plus the ninth vertex passed twice (`Block(u0, .., u7, u8, u8)`). -/
def degenerateCall : Except String BlockData × MeshState :=
  mkBlock nineState [0, 1, 2, 3, 4, 5, 6, 7, 8, 8] none

/-- A `Block` call on the eight vertices created second to ninth (ids
1..8), leaving the first-created vertex (id 0) in no block. -/
def skewCall : Except String BlockData × MeshState :=
  mkBlock nineState [1, 2, 3, 4, 5, 6, 7, 8] none

/-- Eight creations whose fourth vertex is `Vertex(1.5, -2.25, 0.0)`. -/
def c8Coords : List (ℚ × ℚ × ℚ) :=
  [(0, 0, 0), (1, 0, 0), (2, 0, 0), (mkRat 3 2, mkRat (-9) 4, 0),
   (4, 0, 0), (5, 0, 0), (6, 0, 0), (7, 0, 0)]

/-- The fourth vertex created by `c8Coords` (id 3): `Vertex(1.5, -2.25, 0.0)`. -/
def c8Vertex : Vertex := ⟨3, mkRat 3 2, mkRat (-9) 4, 0⟩

/-- State after the eight `c8Coords` creations and one block taking them
in creation order, so `c8Vertex` sits at registry position 3. -/
def c8State : MeshState :=
  (mkBlock (mkVertices initState c8Coords).2 [0, 1, 2, 3, 4, 5, 6, 7] none).2

/-- The `(vertex, index)` pairs produced by `enumerate(vertices)` starting
at a given index: the membership records a block construction appends. -/
def withIdx : Nat → List Nat → List (Nat × Nat)
  | _, [] => []
  | i, v :: rest => (v, i) :: withIdx (i + 1) rest

/-- Eight creations with arbitrary concrete coordinates, for witnesses. -/
def eightCoords : List (ℚ × ℚ × ℚ) :=
  [(0, 0, 0), (1, 0, 0), (2, 0, 0), (3, 0, 0),
   (4, 0, 0), (5, 0, 0), (6, 0, 0), (7, 0, 0)]


theorem recsFor_cons (k : Nat) (recs : List MembershipRec) (rest : VDict) (bid : Nat) :
    recsFor ((k, recs) :: rest) bid =
      ((recs.filter fun r => r.1 == bid).map fun r => (k, r.2)) ++ recsFor rest bid := rfl

theorem recsFor_dictAppend (bid loc : Nat) : ∀ (d : VDict) (v : Nat),
    (recsFor (dictAppend d v (bid, loc)) bid).Perm (recsFor d bid ++ [(v, loc)])
  | [], v => by
    simp [dictAppend, recsFor]
  | (k, recs) :: rest, v => by
    by_cases hk : k = v
    · have hd : dictAppend ((k, recs) :: rest) v (bid, loc) =
          (k, recs ++ [(bid, loc)]) :: rest := by simp [dictAppend, hk]
      rw [hd, recsFor_cons, recsFor_cons, List.filter_append, List.map_append]
      have he : ((([(bid, loc)] : List MembershipRec).filter fun r => r.1 == bid).map
          fun r => (k, r.2)) = [(k, loc)] := by simp
      rw [he, hk, List.append_assoc, List.append_assoc]
      exact List.Perm.append_left _ List.perm_append_comm
    · have hd : dictAppend ((k, recs) :: rest) v (bid, loc) =
          (k, recs) :: dictAppend rest v (bid, loc) := by simp [dictAppend, hk]
      rw [hd, recsFor_cons, recsFor_cons, List.append_assoc]
      exact List.Perm.append_left _ (recsFor_dictAppend bid loc rest v)

theorem recsFor_registerCorners (bid : Nat) : ∀ (vs : List Nat) (d : VDict) (i : Nat),
    (recsFor (registerCorners bid d i vs) bid).Perm (recsFor d bid ++ withIdx i vs)
  | [], d, i => by simp [registerCorners, withIdx]
  | v :: rest, d, i => by
    show (recsFor (registerCorners bid (dictAppend d v (bid, i)) (i + 1) rest) bid).Perm _
    have h2 := recsFor_registerCorners bid rest (dictAppend d v (bid, i)) (i + 1)
    have h1 := List.Perm.append_right (withIdx (i + 1) rest) (recsFor_dictAppend bid i d v)
    have h3 := h2.trans h1
    rw [List.append_assoc] at h3
    exact h3

theorem recsFor_eq_nil : ∀ (d : VDict) (bid : Nat),
    (∀ p ∈ d, ∀ r ∈ p.2, r.1 ≠ bid) → recsFor d bid = []
  | [], bid, _ => rfl
  | (k, recs) :: rest, bid, h => by
    rw [recsFor_cons]
    have h1 : (recs.filter fun r => r.1 == bid) = [] := by
      rw [List.filter_eq_nil_iff]
      intro r hr
      simpa using h (k, recs) (by simp) r hr
    rw [h1, recsFor_eq_nil rest bid fun p hp => h p (by simp [hp])]
    rfl

theorem withIdx_map_fst : ∀ (i : Nat) (vs : List Nat), (withIdx i vs).map Prod.fst = vs
  | _, [] => rfl
  | i, v :: rest => by simp [withIdx, withIdx_map_fst (i + 1) rest]

theorem withIdx_map_snd : ∀ (i : Nat) (vs : List Nat),
    (withIdx i vs).map Prod.snd = List.range' i vs.length
  | _, [] => rfl
  | i, v :: rest => by
    show i :: (withIdx (i + 1) rest).map Prod.snd = List.range' i (rest.length + 1)
    rw [withIdx_map_snd (i + 1) rest]
    rfl

theorem withIdx_snd_mem : ∀ (i : Nat) (vs : List Nat) (q : Nat × Nat),
    q ∈ withIdx i vs → i ≤ q.2
  | i, [], q, h => absurd h (List.not_mem_nil q)
  | i, v :: rest, q, h => by
    rcases List.mem_cons.mp h with h1 | h2
    · rw [h1]
    · exact Nat.le_trans (Nat.le_succ i) (withIdx_snd_mem (i + 1) rest q h2)

theorem withIdx_pairwise_lt : ∀ (i : Nat) (vs : List Nat),
    List.Pairwise (fun p q : Nat × Nat => p.2 < q.2) (withIdx i vs)
  | _, [] => List.Pairwise.nil
  | i, v :: rest => by
    refine List.Pairwise.cons ?_ (withIdx_pairwise_lt (i + 1) rest)
    intro q hq
    exact Nat.lt_of_lt_of_le (Nat.lt_succ_self i) (withIdx_snd_mem (i + 1) rest q hq)

/-- C9.  For every successfully constructed block (in a state whose
membership dictionary does not yet mention the fresh block id — true of
every state actually reachable, since block ids are handed out by the
monotone counter), `Block.vertices` returns exactly the vertex sequence
supplied at construction: each supplied vertex gained one record `(block,
i)` at its argument position `i`, and sorting the collected records by
local id recovers the supply order. -/
theorem c9_ordered_vertices_roundtrip (s : MeshState) (vs : List Nat)
    (nm : Option String) (b : BlockData) (s' : MeshState)
    (hfresh : ∀ p ∈ s.vertexDict, ∀ r ∈ p.2, r.1 ≠ s.blockCount)
    (hok : mkBlock s vs nm = (Except.ok b, s')) :
    blockVertices s' b.id = vs := by
  unfold mkBlock at hok
  by_cases hc : blockCheckPasses vs
  · simp only [hc, not_true_eq_false, if_false, Prod.mk.injEq, Except.ok.injEq] at hok
    obtain ⟨hb, hs⟩ := hok
    have hbid : b.id = s.blockCount := by rw [← hb]
    rw [hbid, ← hs]
    show ((recsFor (registerCorners s.blockCount s.vertexDict 0 vs) s.blockCount).insertionSort
      fun p q => p.2 ≤ q.2).map Prod.fst = vs
    have hnil := recsFor_eq_nil s.vertexDict s.blockCount hfresh
    have hperm : (recsFor (registerCorners s.blockCount s.vertexDict 0 vs)
        s.blockCount).Perm (withIdx 0 vs) := by
      have h2 := recsFor_registerCorners s.blockCount vs s.vertexDict 0
      rwa [hnil, List.nil_append] at h2
    haveI : IsTotal (Nat × Nat) fun p q => p.2 ≤ q.2 := ⟨fun a b => Nat.le_total a.2 b.2⟩
    haveI : IsTrans (Nat × Nat) fun p q => p.2 ≤ q.2 := ⟨fun a b c h1 h2 => Nat.le_trans h1 h2⟩
    haveI : IsAntisymm (Nat × Nat) fun p q : Nat × Nat => p.2 < q.2 :=
      ⟨fun a b h1 h2 => absurd h2 (Nat.lt_asymm h1)⟩
    have hperm2 : ((recsFor (registerCorners s.blockCount s.vertexDict 0 vs)
        s.blockCount).insertionSort fun p q => p.2 ≤ q.2).Perm (withIdx 0 vs) :=
      (List.perm_insertionSort _ _).trans hperm
    have hsorted := List.sorted_insertionSort (fun p q : Nat × Nat => p.2 ≤ q.2)
      (recsFor (registerCorners s.blockCount s.vertexDict 0 vs) s.blockCount)
    have hnd : (((recsFor (registerCorners s.blockCount s.vertexDict 0 vs)
        s.blockCount).insertionSort fun p q => p.2 ≤ q.2).map Prod.snd).Nodup := by
      have h1 : ((withIdx 0 vs).map Prod.snd).Nodup := by
        rw [withIdx_map_snd]
        exact List.nodup_range' _ _
      exact ((hperm2.map Prod.snd).symm).nodup h1
    have hne : List.Pairwise (fun p q : Nat × Nat => p.2 ≠ q.2)
        ((recsFor (registerCorners s.blockCount s.vertexDict 0 vs)
          s.blockCount).insertionSort fun p q => p.2 ≤ q.2) :=
      List.pairwise_map.mp hnd
    have hlt : List.Sorted (fun p q : Nat × Nat => p.2 < q.2)
        ((recsFor (registerCorners s.blockCount s.vertexDict 0 vs)
          s.blockCount).insertionSort fun p q => p.2 ≤ q.2) :=
      (hsorted.and hne).imp fun h => Nat.lt_of_le_of_ne h.1 h.2
    have heq := List.eq_of_perm_of_sorted hperm2 hlt (withIdx_pairwise_lt 0 vs)
    rw [heq, withIdx_map_fst]
  · simp [hc] at hok

/-- Witness for C9: the module-level block `b1` (supplied out of creation
order and sharing four vertices with `b0`) round-trips its supply order. -/
theorem c9_witness :
    (∀ p ∈ b0Call.2.vertexDict, ∀ r ∈ p.2, r.1 ≠ b0Call.2.blockCount) ∧
    blockVertices moduleState 1 = [1, 8, 9, 2, 5, 10, 11, 6] :=
  ⟨by decide,
    c9_ordered_vertices_roundtrip b0Call.2 [1, 8, 9, 2, 5, 10, 11, 6] none
      ⟨1, "Block-1", (10, 10, 10)⟩ moduleState (by decide) rfl⟩

end PyBlockFoam

namespace PyBlockFoam

/-- C1.  The claim says `format_block` prints the corners' registry-derived
`GlobalIndex` values, not their `id` fields.  The code's
`vertices_by_global_id` returns `vertex.id`, and on a trace where one
created vertex joins no block the two disagree: the eight block corners
(ids 1..8) sit at registry positions 0..7, yet the block line prints
`1 .. 8`.  This contradicts the claim (and the property's own name in the
source). -/
theorem c1_format_block_prints_ids_not_global_indices :
    skewCall.1 = Except.ok ⟨0, "Block-0", (10, 10, 10)⟩ ∧
    specGlobalIndices skewCall.2 0 =
      [some 0, some 1, some 2, some 3, some 4, some 5, some 6, some 7] ∧
    blockBlockMeshFormat skewCall.2 ⟨0, "Block-0", (10, 10, 10)⟩ =
      "hex (1 2 3 4 5 6 7 8) Block-0 (10 10 10) simpleGrading (1 1 1)" ∧
    blockBlockMeshFormat skewCall.2 ⟨0, "Block-0", (10, 10, 10)⟩ ≠
      "hex (0 1 2 3 4 5 6 7) Block-0 (10 10 10) simpleGrading (1 1 1)" := by
  refine ⟨rfl, by decide, by decide, by decide⟩

/-- C3.  The guard accepts any argument tuple in which exactly eight
arguments occur exactly once: a call with TEN references (eight distinct
plus one vertex passed twice) is accepted, refuting "with any other count
... it fails".  The parts of the claim that do hold: eight distinct
references succeed, and seven references fail with a message reporting the
count actually received. -/
theorem c3_ten_references_accepted :
    degenerateCall.1.isOk = true ∧
    (mkBlock nineState [0, 1, 2, 3, 4, 5, 6, 7] none).1.isOk = true ∧
    (mkBlock nineState [0, 1, 2, 3, 4, 5, 6] none).1 =
      Except.error "Need exactly 8 unique vertices to create a block, got 7:" := by
  refine ⟨by decide, by decide, rfl⟩

/-- C4.  The write-once check `if getattr(self, "id", None):` is a
truthiness test, and the integer `0` is falsy: the instance whose id is 0
can be silently re-assigned, refuting "for every instance (including the
instance whose id is 0)".  A nonzero id is protected as claimed. -/
theorem c4_id_zero_silently_reassigned :
    setId none 0 = Except.ok (some 0) ∧
    setId (some 0) 5 = Except.ok (some 5) ∧
    setId (some 1) 5 = Except.error "id already set" :=
  ⟨rfl, rfl, rfl⟩

/-- C5.  In the module-level two-cube configuration (`b0` on `v0..v7`,
`b1` on `v1,v8,v9,v2,v5,v10,v11,v6`), `connected_to(v1)` is exactly
the set of vertices with ids 0, 2, 5 and 8. -/
theorem c5_two_cube_connectivity :
    connected_to moduleState 1 = some ({0, 2, 5, 8} : Finset Nat) := by
  have h1 : connected_to moduleState 1 = some (([0, 2, 5, 8, 2, 5] : List Nat).toFinset) := rfl
  rw [h1]
  congr 1
  decide

/-- C6.  The successfully constructed ten-reference block of
`degenerateCall` has TEN membership records, with local indices 0..9 —
local indices outside 0..7 occur and the count is not 8, refuting the
membership invariant claimed for every successfully constructed block. -/
theorem c6_membership_invariant_violated :
    degenerateCall.1.isOk = true ∧
    (vertices_with_local_id degenerateCall.2 0).length = 10 ∧
    (vertices_with_local_id degenerateCall.2 0).map Prod.snd =
      [0, 1, 2, 3, 4, 5, 6, 7, 8, 9] := by
  refine ⟨by decide, by decide, by decide⟩

/-- C7.  Failed block construction is atomic: the guard raises before any
state is touched, so on an error the process-wide state (counters and
membership dictionary) is returned exactly as it was. -/
theorem c7_failed_construction_is_atomic (s : MeshState) (vs : List Nat)
    (nm : Option String) (e : String)
    (h : (mkBlock s vs nm).1 = Except.error e) : (mkBlock s vs nm).2 = s := by
  unfold mkBlock at h ⊢
  by_cases hc : blockCheckPasses vs
  · simp [hc] at h
  · simp [hc]

/-- Witness for C7 at a concrete failing call (zero arguments). -/
theorem c7_witness :
    (mkBlock initState [] none).1 =
      Except.error "Need exactly 8 unique vertices to create a block, got 0:" ∧
    (mkBlock initState [] none).2 = initState :=
  ⟨rfl, c7_failed_construction_is_atomic initState [] none
    "Need exactly 8 unique vertices to create a block, got 0:" rfl⟩

/-- C10.  A vertex that is a corner of no block has no entry in the vertex
dictionary; `connected_to` then iterates `dict.get(self, [])` over nothing
(raising no error and inserting no key) and returns the empty set, and
`is_inner_vertex` is false. -/
theorem c10_unregistered_vertex_has_empty_connectivity (s : MeshState) (vid : Nat)
    (h : s.vertexDict.lookup vid = none) :
    connected_to s vid = some (∅ : Finset Nat) ∧ is_inner_vertex s vid = some false := by
  have h1 : connected_to s vid = some (∅ : Finset Nat) := by
    simp [connected_to, h]
    rfl
  refine ⟨h1, ?_⟩
  simp [is_inner_vertex, h1]

/-- Witness for C10: the freshly created vertex of a one-vertex process. -/
theorem c10_witness :
    ((mkVertex initState 0 0 0).2.vertexDict.lookup
      (mkVertex initState 0 0 0).1.id = none) ∧
    connected_to (mkVertex initState 0 0 0).2 (mkVertex initState 0 0 0).1.id =
      some (∅ : Finset Nat) ∧
    is_inner_vertex (mkVertex initState 0 0 0).2 (mkVertex initState 0 0 0).1.id =
      some false :=
  ⟨by decide,
    (c10_unregistered_vertex_has_empty_connectivity _ _ (by decide)).1,
    (c10_unregistered_vertex_has_empty_connectivity _ _ (by decide)).2⟩

/-- C8.  For every vertex whose global index is defined,
`Vertex.blockMesh_format` is exactly the template
`( {x:12.6f} {y:12.6f} {z:12.6f} ) // {index:6d}`: the three coordinates in
the 12-wide 6-decimal float format, space-separated inside parentheses,
then the line comment with the 6-wide global index. -/
theorem c8_vertex_format_template (s : MeshState) (v : Vertex) (gi : Nat)
    (h : globalId s v.id = some gi) :
    vertexBlockMeshFormat s v =
      some ("( " ++ floatFormat v.x ++ " " ++ floatFormat v.y ++ " "
        ++ floatFormat v.z ++ " ) // " ++ intFormat gi) := by
  simp [vertexBlockMeshFormat, h]

/-- Witness for C8: `Vertex(1.5, -2.25, 0.0)` (the fourth created vertex,
sitting at registry position 3) formats to the exact claimed string. -/
theorem c8_witness :
    (mkVertices initState c8Coords).1.get? 3 = some c8Vertex ∧
    globalId c8State c8Vertex.id = some 3 ∧
    vertexBlockMeshFormat c8State c8Vertex =
      some "(     1.500000    -2.250000     0.000000 ) //      3" := by
  refine ⟨rfl, rfl, ?_⟩
  rw [c8_vertex_format_template c8State c8Vertex 3 rfl]
  decide

/-- C2 is refuted at the very first creation: a vertex enters the registry
(the vertex dictionary) only when a block registers it as a corner, so the
first created vertex of a fresh process has NO global index (`None`),
not 0. -/
theorem c2_counterexample :
    globalId (mkVertex initState 0 0 0).2 (mkVertex initState 0 0 0).1.id = none ∧
    (none : Option Nat) ≠ some 0 :=
  ⟨rfl, by decide⟩

theorem mkVertices_snd : ∀ (cs : List (ℚ × ℚ × ℚ)) (s : MeshState),
    (mkVertices s cs).2 = ⟨s.vertexCount + cs.length, s.blockCount, s.vertexDict⟩
  | [], s => by simp [mkVertices]
  | c :: rest, s => by
    show (mkVertices ⟨s.vertexCount + 1, s.blockCount, s.vertexDict⟩ rest).2 = _
    rw [mkVertices_snd rest]
    simp [MeshState.mk.injEq, List.length_cons]
    omega

theorem mkVertices_ids : ∀ (cs : List (ℚ × ℚ × ℚ)) (s : MeshState),
    (mkVertices s cs).1.map Vertex.id = List.range' s.vertexCount cs.length
  | [], s => rfl
  | c :: rest, s => by
    show s.vertexCount :: (mkVertices ⟨s.vertexCount + 1, s.blockCount, s.vertexDict⟩ rest).1.map Vertex.id = _
    rw [mkVertices_ids rest]
    rfl

theorem indexOf?_append_of_some {l l' : List Nat} {v : Nat} {i : Nat}
    (h : l.indexOf? v = some i) : (l ++ l').indexOf? v = some i := by
  unfold List.indexOf? at h ⊢
  rw [List.findIdx?_append, h]
  rfl

theorem dictKeys_dictAppend (d : VDict) (k : Nat) (e : MembershipRec) :
    ∃ ext, dictKeys (dictAppend d k e) = dictKeys d ++ ext := by
  induction d with
  | nil => exact ⟨[k], rfl⟩
  | cons p rest ih =>
    obtain ⟨k', recs⟩ := p
    by_cases hk : k' = k
    · exact ⟨[], by simp [dictAppend, hk, dictKeys]⟩
    · obtain ⟨ext, hext⟩ := ih
      exact ⟨ext, by simp [dictAppend, hk, dictKeys] at hext ⊢; exact hext⟩

theorem dictKeys_registerCorners (bid : Nat) : ∀ (vs : List Nat) (d : VDict) (i : Nat),
    ∃ ext, dictKeys (registerCorners bid d i vs) = dictKeys d ++ ext
  | [], d, i => ⟨[], by simp [registerCorners]⟩
  | v :: rest, d, i => by
    obtain ⟨ext1, h1⟩ := dictKeys_dictAppend d v (bid, i)
    obtain ⟨ext2, h2⟩ := dictKeys_registerCorners bid rest (dictAppend d v (bid, i)) (i + 1)
    exact ⟨ext1 ++ ext2, by
      show dictKeys (registerCorners bid (dictAppend d v (bid, i)) (i + 1) rest) = _
      rw [h2, h1, List.append_assoc]⟩

/-- C2 as amended: a global index is the vertex's position in the order
vertices are first registered as block corners (the dictionary key order),
not the creation order, and it is undefined until some block registers the
vertex.  Concretely: (i) when eight vertices are created in a fresh
process and a block takes them in creation order, the global indices are
exactly 0..7 in creation order; (ii) once defined, a global index is never
changed by any later block construction; (iii) vertex creation never
changes any global index. -/
theorem c2_amended_registration_order (cs : List (ℚ × ℚ × ℚ)) (hlen : cs.length = 8) :
    ((mkVertices initState cs).1.map Vertex.id = [0, 1, 2, 3, 4, 5, 6, 7] ∧
      ∀ k, k < 8 →
        globalId (mkBlock (mkVertices initState cs).2
          ((mkVertices initState cs).1.map Vertex.id) none).2 k = some k) ∧
    (∀ (s : MeshState) (vs : List Nat) (nm : Option String) (vid i : Nat),
      globalId s vid = some i → globalId (mkBlock s vs nm).2 vid = some i) ∧
    (∀ (s : MeshState) (x y z : ℚ) (vid : Nat),
      globalId (mkVertex s x y z).2 vid = globalId s vid) := by
  have hpreserve : ∀ (s : MeshState) (vs : List Nat) (nm : Option String) (vid i : Nat),
      globalId s vid = some i → globalId (mkBlock s vs nm).2 vid = some i := by
    intro s vs nm vid i h
    unfold mkBlock
    by_cases hc : blockCheckPasses vs
    · simp only [hc, not_true_eq_false, if_false]
      obtain ⟨ext, hext⟩ := dictKeys_registerCorners s.blockCount vs s.vertexDict 0
      unfold globalId at h ⊢
      simpa [hext] using indexOf?_append_of_some h
    · simp only [hc, not_false_eq_true, if_true]
      exact h
  refine ⟨?_, hpreserve, fun s x y z vid => rfl⟩
  have hids := mkVertices_ids cs initState
  have hsnd := mkVertices_snd cs initState
  rw [hlen] at hids hsnd
  have hids' : (mkVertices initState cs).1.map Vertex.id = [0, 1, 2, 3, 4, 5, 6, 7] := by
    rw [hids]; rfl
  refine ⟨hids', ?_⟩
  rw [hids', hsnd]
  show ∀ k, k < 8 → globalId (mkBlock ⟨8, 0, []⟩ [0, 1, 2, 3, 4, 5, 6, 7] none).2 k = some k
  decide

/-- Witness for C2 (amended): eight concrete creations registered in
creation order give global index 3 to the fourth vertex, and a later
(failing) block call does not change the global index of module vertex 1. -/
theorem c2_witness :
    eightCoords.length = 8 ∧
    globalId (mkBlock (mkVertices initState eightCoords).2
      ((mkVertices initState eightCoords).1.map Vertex.id) none).2 3 = some 3 ∧
    (globalId moduleState 1 = some 1 ∧
      globalId (mkBlock moduleState [] none).2 1 = some 1) :=
  ⟨rfl,
    ((c2_amended_registration_order eightCoords rfl).1).2 3 (by omega),
    ⟨rfl, (c2_amended_registration_order eightCoords rfl).2.1 moduleState [] none 1 1 rfl⟩⟩


end PyBlockFoam
